import Mathlib

/-!
# SBEMimage: verification of the grid geometry engine and acquisition orchestrator

Shallow embedding of the relevant parts of `grid_manager.py` and
`stack_acquisition.py` (SBEMimage 2.0), together with formal statements and
proofs of the specification claims about them.

Conventions of the embedding:
* Python ints are `ℕ` or `ℤ` (Python `//` and `%` on ints are floor division
  and floor modulus; for a positive divisor these agree with Lean's `Int.ediv`
  / `Int.emod`, and we record the conversion explicitly where it matters).
* Python floats are modelled as exact rationals `ℚ`.
* Python dicts used as tile maps are modelled as (optional-valued) functions
  updated by folding over the same loop iterations the source performs.
* Hardware responses (microtome error codes, image-inspector verdicts) are
  inputs to the embedded step functions, mirroring the call sites.
-/

namespace SBEM

open scoped List

/-! ## Generic helpers: dictionary writes performed by nested loops -/

/-- The iteration space of the nested loops `for y_pos in range(rows): for
x_pos in range(cols):` used by `calculate_grid_map` and the focus-map update,
as the list of `(y_pos, x_pos)` pairs in iteration order. -/
def gridIters (rows cols : ℕ) : List (ℕ × ℕ) :=
  (List.range rows).flatMap (fun y => (List.range cols).map (fun x => (y, x)))

theorem mem_gridIters {rows cols : ℕ} {p : ℕ × ℕ} :
    p ∈ gridIters rows cols ↔ p.1 < rows ∧ p.2 < cols := by
  cases p with
  | mk y x =>
    simp only [gridIters, List.mem_flatMap, List.mem_map, List.mem_range]
    constructor
    · rintro ⟨a, ha, b, hb, h⟩
      cases h
      exact ⟨ha, hb⟩
    · rintro ⟨hy, hx⟩
      exact ⟨y, hy, x, hx, rfl⟩

theorem gridIters_nodup (rows cols : ℕ) : (gridIters rows cols).Nodup := by
  rw [gridIters, List.nodup_flatMap]
  constructor
  · intro y _
    exact (List.nodup_range cols).map (fun a b h => by
      simpa using congrArg Prod.snd h)
  · rw [List.pairwise_iff_get]
    intro i j hij
    simp only [Function.onFun, List.disjoint_left]
    rintro ⟨y, x⟩ hmem hmem'
    simp only [List.mem_map, List.mem_range] at hmem hmem'
    obtain ⟨a, -, ha⟩ := hmem
    obtain ⟨b, -, hb⟩ := hmem'
    have h1 : (List.range rows).get i = y := by
      simpa using congrArg Prod.fst ha
    have h2 : (List.range rows).get j = y := by
      simpa using congrArg Prod.fst hb
    have : (List.range rows).get i = (List.range rows).get j := h1.trans h2.symm
    have := List.Nodup.get_inj_iff (List.nodup_range rows) |>.mp this
    exact absurd (congrArg Fin.val this) (Nat.ne_of_lt hij)

/-- Fold a sequence of keyed writes into a map, mirroring a Python loop that
assigns `m[key i] = val i` for each iteration `i` of `L` in order. -/
def writeFold {ι κ α : Type} [DecidableEq κ]
    (key : ι → κ) (val : ι → α) (L : List ι) (m0 : κ → α) : κ → α :=
  L.foldl (fun m i => Function.update m (key i) (val i)) m0

theorem writeFold_nil {ι κ α : Type} [DecidableEq κ]
    (key : ι → κ) (val : ι → α) (m0 : κ → α) :
    writeFold key val [] m0 = m0 := rfl

theorem writeFold_cons {ι κ α : Type} [DecidableEq κ]
    (key : ι → κ) (val : ι → α) (i : ι) (L : List ι) (m0 : κ → α) :
    writeFold key val (i :: L) m0
      = writeFold key val L (Function.update m0 (key i) (val i)) := rfl

theorem writeFold_append {ι κ α : Type} [DecidableEq κ]
    (key : ι → κ) (val : ι → α) (A B : List ι) (m0 : κ → α) :
    writeFold key val (A ++ B) m0 = writeFold key val B (writeFold key val A m0) := by
  simp [writeFold, List.foldl_append]

theorem writeFold_eq_of_not_mem {ι κ α : Type} [DecidableEq κ]
    (key : ι → κ) (val : ι → α) {L : List ι} {k : κ}
    (h : k ∉ L.map key) (m0 : κ → α) :
    writeFold key val L m0 k = m0 k := by
  induction L generalizing m0 with
  | nil => rfl
  | cons i t ih =>
    simp only [List.map_cons, List.mem_cons, not_or] at h
    rw [writeFold_cons, ih h.2]
    exact Function.update_noteq h.1 _ m0

/-- If iteration `i` writes key `k` and no later iteration writes `k` again,
the final map holds `val i` at `k`. -/
theorem writeFold_eq_of_last {ι κ α : Type} [DecidableEq κ]
    (key : ι → κ) (val : ι → α) {A B : List ι} {i : ι} {k : κ}
    (hk : key i = k) (hB : k ∉ B.map key) (m0 : κ → α) :
    writeFold key val (A ++ i :: B) m0 k = val i := by
  rw [writeFold_append, writeFold_cons, writeFold_eq_of_not_mem key val hB]
  rw [hk, Function.update_same]

/-- Main lookup principle: if `i ∈ L`, `L` has no duplicate iterations, and
`key` is injective on the members of `L`, the final map holds `val i` at
`key i`. -/
theorem writeFold_eq_of_mem {ι κ α : Type} [DecidableEq κ]
    (key : ι → κ) (val : ι → α) {L : List ι} {i : ι}
    (hmem : i ∈ L) (hnd : L.Nodup)
    (hinj : ∀ j ∈ L, key j = key i → j = i) (m0 : κ → α) :
    writeFold key val L m0 (key i) = val i := by
  obtain ⟨A, B, rfl⟩ := List.append_of_mem hmem
  have hiB : i ∉ B := by
    have := List.Nodup.of_append_right hnd
    simp only [List.nodup_cons] at this
    exact this.1
  have hB : key i ∉ B.map key := by
    intro hmemB
    obtain ⟨j, hjB, hjk⟩ := List.mem_map.mp hmemB
    have : j = i := hinj j (by simp [hjB]) hjk
    exact hiB (this ▸ hjB)
  exact writeFold_eq_of_last key val rfl hB m0

/-! ## `perform_cutting_sequence` (stack_acquisition.py, lines 1014-1043)

The microtome is an external collaborator; its two error reports (after the
Z move and after the cut) are inputs `zErr` and `cutErr` to the embedded
step function. -/

/-- The orchestrator state touched by the cutting phase. -/
structure CutState where
  stage_z_position : ℚ
  slice_counter : ℕ
  total_z_diff : ℚ
  slice_thickness : ℕ
  pause_state : ℕ
  acq_paused : Bool
  error_state : ℕ
  deriving Repr, DecidableEq

/-- `pause_acquisition(1)` (stack_acquisition.py, lines 1797-1802). -/
def pause_acquisition_1 (st : CutState) : CutState :=
  { st with pause_state := 1, acq_paused := true }

/-- `perform_cutting_sequence` (stack_acquisition.py, lines 1014-1043):
move to the new Z position, read the microtome error state; if clear, do the
full cut and read the error state again; on any error pause, otherwise
advance `slice_counter` and `total_z_diff`. -/
def perform_cutting_sequence (st : CutState) (zErr cutErr : ℕ) : CutState :=
  let st1 := { st with
    stage_z_position := st.stage_z_position + (st.slice_thickness : ℚ) / 1000 }
  let st2 := { st1 with error_state := zErr }
  let st3 := if st2.error_state = 0 then { st2 with error_state := cutErr } else st2
  if st3.error_state > 0 then
    pause_acquisition_1 st3
  else
    { st3 with
      slice_counter := st3.slice_counter + 1,
      total_z_diff := st3.total_z_diff + (st.slice_thickness : ℚ) / 1000 }

/-- C1: the cutting phase advances `slice_counter` and accumulates
`total_z_diff` by `slice_thickness/1000` exactly when both microtome error
reports (after the Z move and after the cut) are zero; on any reported error
it pauses the acquisition and leaves both counters unchanged. -/
theorem cutting_advances_iff_no_error (st : CutState) (zErr cutErr : ℕ) :
    (((perform_cutting_sequence st zErr cutErr).slice_counter = st.slice_counter + 1
        ∧ (perform_cutting_sequence st zErr cutErr).total_z_diff
            = st.total_z_diff + (st.slice_thickness : ℚ) / 1000)
      ↔ (zErr = 0 ∧ cutErr = 0))
    ∧ (¬ (zErr = 0 ∧ cutErr = 0) →
        (perform_cutting_sequence st zErr cutErr).slice_counter = st.slice_counter
        ∧ (perform_cutting_sequence st zErr cutErr).total_z_diff = st.total_z_diff
        ∧ (perform_cutting_sequence st zErr cutErr).pause_state = 1
        ∧ (perform_cutting_sequence st zErr cutErr).acq_paused = true) := by
  unfold perform_cutting_sequence pause_acquisition_1
  by_cases hz : zErr = 0
  · by_cases hc : cutErr = 0
    · subst hz; subst hc
      simp
    · subst hz
      simp only [if_pos rfl]
      have : cutErr > 0 := Nat.pos_of_ne_zero hc
      simp [this, hc, Nat.ne_of_gt (Nat.lt_succ_of_le (Nat.le_refl _))]
  · have : zErr > 0 := Nat.pos_of_ne_zero hz
    simp [hz, this, Nat.ne_of_gt (Nat.lt_succ_of_le (Nat.le_refl _))]

/-- Witness for C1 at a concrete state and concrete error reports. -/
theorem cutting_advances_iff_no_error_witness :
    let st : CutState :=
      { stage_z_position := 0, slice_counter := 5, total_z_diff := 1,
        slice_thickness := 50, pause_state := 0, acq_paused := false,
        error_state := 0 }
    (((perform_cutting_sequence st 0 0).slice_counter = st.slice_counter + 1
        ∧ (perform_cutting_sequence st 0 0).total_z_diff
            = st.total_z_diff + (st.slice_thickness : ℚ) / 1000)
      ↔ ((0 : ℕ) = 0 ∧ (0 : ℕ) = 0))
    ∧ (¬ ((0 : ℕ) = 0 ∧ (0 : ℕ) = 0) →
        (perform_cutting_sequence st 0 0).slice_counter = st.slice_counter
        ∧ (perform_cutting_sequence st 0 0).total_z_diff = st.total_z_diff
        ∧ (perform_cutting_sequence st 0 0).pause_state = 1
        ∧ (perform_cutting_sequence st 0 0).acq_paused = true) :=
  cutting_advances_iff_no_error _ 0 0

/-! ## `is_slice_active` (grid_manager.py, lines 388-394) -/

/-- `is_slice_active` (grid_manager.py, lines 388-394): a grid participates
in a slice when the slice counter has reached the grid's interval offset and
the difference is a multiple of the grid's acquisition interval.  Python `%`
with a positive right operand agrees with `Int.emod`. -/
def is_slice_active (acq_interval acq_interval_offset : ℤ) (slice_counter : ℤ) : Bool :=
  if slice_counter ≥ acq_interval_offset then
    decide ((slice_counter - acq_interval_offset) % acq_interval = 0)
  else
    false

/-- The intervallic gate of the grid-acquisition loop in `run`
(stack_acquisition.py, lines 628-650), for one grid, given that the loop was
entered (no error, no immediate pause): the grid is acquired rather than
skipped exactly when its schedule is active, it has active tiles, and it is
not already in `grids_acquired`. -/
def grid_phase_acquires (acq_interval acq_interval_offset : ℤ) (slice_counter : ℤ)
    (num_active_tiles : ℕ) (grids_acquired : List ℕ) (grid_number : ℕ) : Bool :=
  is_slice_active acq_interval acq_interval_offset slice_counter
    && decide (0 < num_active_tiles)
    && ! decide (grid_number ∈ grids_acquired)

/-- C8 counterexample: with `acq_interval = 2`, `acq_interval_offset = 2` and
`slice_counter = 0`, the divisibility condition `(s - offset) mod interval = 0`
holds, yet `is_slice_active` reports `false` (the code additionally requires
`slice_counter >= offset`). -/
theorem is_slice_active_counterexample :
    is_slice_active 2 2 0 = false ∧ ((0 : ℤ) - 2) % 2 = 0 := by
  constructor
  · rfl
  · decide

/-- C8 (amended): a grid participates in slice `s` iff `s` has reached the
grid's `acq_interval_offset` **and** `(s - offset) mod interval = 0`; under
those readings the orchestrator's grid phase acquires the grid exactly when
this schedule condition holds, it has active tiles, and it was not already
acquired. -/
theorem is_slice_active_iff (interval offset s : ℤ) (hpos : 0 < interval) :
    (is_slice_active interval offset s = true
      ↔ (offset ≤ s ∧ (s - offset) % interval = 0))
    ∧ (∀ (na : ℕ) (ga : List ℕ) (g : ℕ),
        grid_phase_acquires interval offset s na ga g = true
          ↔ (is_slice_active interval offset s = true ∧ 0 < na ∧ g ∉ ga)) := by
  constructor
  · unfold is_slice_active
    by_cases h : s ≥ offset
    · simp [h]
    · simp [h]
  · intro na ga g
    unfold grid_phase_acquires
    simp [and_assoc]

/-- Witness for C8 (amended) at concrete inputs. -/
theorem is_slice_active_iff_witness :
    ((is_slice_active 2 1 5 = true ↔ ((1 : ℤ) ≤ 5 ∧ ((5 : ℤ) - 1) % 2 = 0))
      ∧ (∀ (na : ℕ) (ga : List ℕ) (g : ℕ),
          grid_phase_acquires 2 1 5 na ga g = true
            ↔ (is_slice_active 2 1 5 = true ∧ 0 < na ∧ g ∉ ga)))
    ∧ is_slice_active 2 1 5 = true := by
  refine ⟨is_slice_active_iff 2 1 5 (by decide), ?_⟩
  rfl

/-! ## `update_active_tiles_to_new_grid_size` and `set_grid_size`
(grid_manager.py, lines 446-464 and 150-158) -/

/-- `update_active_tiles_to_new_grid_size` (grid_manager.py, lines 446-464):
for each currently active tile index, compute its `(row, col)` under the
current column count; keep it (re-indexed under the new column count) when
both coordinates fit in the new grid, drop it otherwise. -/
def update_active_tiles_to_new_grid_size
    (current_cols new_rows new_cols : ℕ) : List ℕ → List ℕ
  | [] => []
  | t :: rest =>
    let x_pos := t % current_cols
    let y_pos := t / current_cols
    if x_pos < new_cols ∧ y_pos < new_rows then
      (x_pos + y_pos * new_cols) :: update_active_tiles_to_new_grid_size
        current_cols new_rows new_cols rest
    else
      update_active_tiles_to_new_grid_size current_cols new_rows new_cols rest

theorem mem_update_active_tiles {cc nr nc : ℕ} {active : List ℕ} {n : ℕ} :
    n ∈ update_active_tiles_to_new_grid_size cc nr nc active
      ↔ ∃ t ∈ active, t % cc < nc ∧ t / cc < nr ∧ n = t % cc + (t / cc) * nc := by
  induction active with
  | nil => simp [update_active_tiles_to_new_grid_size]
  | cons t rest ih =>
    unfold update_active_tiles_to_new_grid_size
    by_cases h : t % cc < nc ∧ t / cc < nr
    · simp only [if_pos h, List.mem_cons, ih]
      constructor
      · rintro (rfl | ⟨u, hu, h1, h2, rfl⟩)
        · exact ⟨t, by simp, h.1, h.2, rfl⟩
        · exact ⟨u, by simp [hu], h1, h2, rfl⟩
      · rintro ⟨u, hu, h1, h2, rfl⟩
        rcases hu with rfl | hu'
        · exact Or.inl rfl
        · exact Or.inr ⟨u, hu', h1, h2, rfl⟩
    · simp only [if_neg h, ih, List.mem_cons]
      constructor
      · rintro ⟨u, hu, h1, h2, rfl⟩
        exact ⟨u, Or.inr hu, h1, h2, rfl⟩
      · rintro ⟨u, hu, h1, h2, rfl⟩
        rcases hu with rfl | hu'
        · exact absurd ⟨h1, h2⟩ h
        · exact ⟨u, hu', h1, h2, rfl⟩

/-- The per-grid state touched by `set_grid_size`. -/
structure GridSizeState where
  rows : ℕ
  cols : ℕ
  active_tiles : List ℕ
  number_active_tiles : ℕ
  deriving Repr, DecidableEq

/-- `set_grid_size` for an existing grid (grid_manager.py, lines 150-158):
when the requested size differs from the current one, remap the active tiles
via `update_active_tiles_to_new_grid_size` (which also resets
`number_active_tiles` to the length of the remapped list, lines 459-464),
then store the new size. -/
def set_grid_size (st : GridSizeState) (new_rows new_cols : ℕ) : GridSizeState :=
  if (st.rows, st.cols) ≠ (new_rows, new_cols) then
    let na := update_active_tiles_to_new_grid_size st.cols new_rows new_cols
      st.active_tiles
    { rows := new_rows, cols := new_cols,
      active_tiles := na, number_active_tiles := na.length }
  else
    st

/-- C3: after `set_grid_size` changes an existing grid's size, the position
`(r, c)` of the new grid (its new index being `c + r*new_cols`) is active
exactly when `c` was a valid column of the old grid and the old index
`c + r*old_cols` was active; moreover every new active index lies inside the
new grid.  (In particular, a previously active tile at `(r, c)` stays active
iff `r < new_rows` and `c < new_cols`, every other previously active tile is
dropped, and no previously inactive position becomes active.) -/
theorem set_grid_size_remaps_active (st : GridSizeState) (nr nc : ℕ)
    (hcc : 0 < st.cols)
    (hchange : (st.rows, st.cols) ≠ (nr, nc)) :
    (∀ r c : ℕ, r < nr → c < nc →
      (c + r * nc ∈ (set_grid_size st nr nc).active_tiles
        ↔ (c < st.cols ∧ c + r * st.cols ∈ st.active_tiles)))
    ∧ (∀ n ∈ (set_grid_size st nr nc).active_tiles, n < nr * nc) := by
  unfold set_grid_size
  rw [if_pos hchange]
  constructor
  · intro r c hr hc
    rw [mem_update_active_tiles]
    constructor
    · rintro ⟨t, ht, h1, h2, heq⟩
      -- the decomposition n = col + row * nc with col < nc is unique
      have hnc : 0 < nc := lt_of_le_of_lt (Nat.zero_le c) hc
      have hc1 : (c + r * nc) % nc = c := by
        rw [Nat.add_mul_mod_self_right, Nat.mod_eq_of_lt hc]
      have hc2 : (c + r * nc) / nc = r := by
        rw [Nat.add_mul_div_right _ _ hnc, Nat.div_eq_of_lt hc]; simp
      have ht1 : (t % st.cols + t / st.cols * nc) % nc = t % st.cols := by
        rw [Nat.add_mul_mod_self_right, Nat.mod_eq_of_lt h1]
      have ht2 : (t % st.cols + t / st.cols * nc) / nc = t / st.cols := by
        rw [Nat.add_mul_div_right _ _ hnc, Nat.div_eq_of_lt h1]; simp
      have hceq : c = t % st.cols := by rw [← hc1, heq, ht1]
      have hreq : r = t / st.cols := by rw [← hc2, heq, ht2]
      constructor
      · rw [hceq]; exact Nat.mod_lt t hcc
      · have htt : c + r * st.cols = t := by
          rw [hceq, hreq, Nat.mod_add_div' t st.cols]
        rw [htt]; exact ht
    · rintro ⟨hccol, hmem⟩
      refine ⟨c + r * st.cols, hmem, ?_, ?_, ?_⟩
      · rw [Nat.add_mul_mod_self_right, Nat.mod_eq_of_lt hccol]; exact hc
      · rw [Nat.add_mul_div_right _ _ hcc, Nat.div_eq_of_lt hccol]
        simpa using hr
      · rw [Nat.add_mul_mod_self_right, Nat.mod_eq_of_lt hccol,
          Nat.add_mul_div_right _ _ hcc, Nat.div_eq_of_lt hccol]
        simp
  · intro n hn
    rw [mem_update_active_tiles] at hn
    obtain ⟨t, _, h1, h2, rfl⟩ := hn
    calc t % st.cols + t / st.cols * nc < nc + t / st.cols * nc := by omega
    _ = (t / st.cols + 1) * nc := by ring
    _ ≤ nr * nc := Nat.mul_le_mul (by omega) le_rfl

/-- Witness for C3: shrinking a 3×3 grid (active tiles 0, 4, 8) to 2×2. -/
theorem set_grid_size_remaps_active_witness :
    let st : GridSizeState :=
      { rows := 3, cols := 3, active_tiles := [0, 4, 8],
        number_active_tiles := 3 }
    (∀ r c : ℕ, r < 2 → c < 2 →
      (c + r * 2 ∈ (set_grid_size st 2 2).active_tiles
        ↔ (c < st.cols ∧ c + r * st.cols ∈ st.active_tiles)))
    ∧ (∀ n ∈ (set_grid_size st 2 2).active_tiles, n < 2 * 2) :=
  set_grid_size_remaps_active _ 2 2 (by decide) (by decide)

/-! ## The per-unit retry loops of the orchestrator
(`run`, stack_acquisition.py, lines 536-595; `acquire_grid`, lines 1453-1474)

One call to `acquire_overview` / `acquire_tile` is modelled by the verdict it
leaves behind: the accepted flag it returns and the `error_state` it sets
(0 when none).  `acquire_overview` can also pause internally (user abort,
OV image error); that is the `paused` field.  The loops below mirror the
source's control flow over a list of such verdicts. -/

/-- Outcome of one `acquire_overview` call (returned flag, `error_state`,
whether it called `pause_acquisition(1)` internally). -/
structure OVAttempt where
  accepted : Bool
  error : ℕ
  paused : Bool
  deriving Repr, DecidableEq

/-- Debris-handling configuration read before the OV loop
(stack_acquisition.py, lines 524-530). -/
structure OVLoopCfg where
  use_debris_detection : Bool
  first_ov : Bool
  max_number_sweeps : ℕ
  deriving Repr, DecidableEq

/-- The loop-local state of one overview unit. -/
structure OVLoopState where
  accepted : Bool
  sweep_limit : Bool
  pause_state : ℕ
  error_state : ℕ
  fail_counter : ℕ
  sweep_counter : ℕ
  deriving Repr, DecidableEq

/-- Fresh loop state for one overview unit (stack_acquisition.py,
lines 536-539; the enclosing loop guarantees `error_state = 0` and
`pause_state ≠ 1` on entry). -/
def ovLoopInit : OVLoopState :=
  { accepted := false, sweep_limit := false, pause_state := 0,
    error_state := 0, fail_counter := 0, sweep_counter := 0 }

/-- The OV acquisition loop (stack_acquisition.py, lines 541-579): retry on
transient errors 303/404, counting failures; the third consecutive failure
pauses the acquisition; any other nonzero error breaks out; a rejected but
error-free image enters the debris-sweep branch. -/
def ov_acq_loop (cfg : OVLoopCfg) : List OVAttempt → OVLoopState → OVLoopState
  | [], st => st
  | a :: rest, st =>
    if st.accepted = false ∧ st.sweep_limit = false ∧ st.pause_state ≠ 1
        ∧ st.fail_counter < 3 then
      let st1 : OVLoopState := { st with
        accepted := a.accepted,
        error_state := a.error,
        pause_state := if a.paused then 1 else st.pause_state }
      if st1.error_state = 303 ∨ st1.error_state = 404 then
        if st1.fail_counter + 1 = 3 then
          ov_acq_loop cfg rest
            { st1 with fail_counter := st1.fail_counter + 1, pause_state := 1 }
        else
          ov_acq_loop cfg rest
            { st1 with fail_counter := st1.fail_counter + 1, error_state := 0 }
      else if st1.error_state > 0 then
        st1
      else if st1.accepted = false ∧ st1.pause_state ≠ 1
          ∧ (cfg.use_debris_detection = true ∨ cfg.first_ov = true) then
        if st1.sweep_counter < cfg.max_number_sweeps then
          ov_acq_loop cfg rest { st1 with sweep_counter := st1.sweep_counter + 1 }
        else if st1.sweep_counter = cfg.max_number_sweeps then
          ov_acq_loop cfg rest { st1 with sweep_limit := true }
        else
          ov_acq_loop cfg rest st1
      else
        ov_acq_loop cfg rest st1
    else st

/-- Outcome of one `acquire_tile` call as far as the retry loop inspects it
(the returned `tile_accepted` flag and the `error_state` it sets; the
skipped/selected flags only matter after the loop). -/
structure TileAttempt where
  accepted : Bool
  error : ℕ
  deriving Repr, DecidableEq

/-- The loop-local state of one tile unit. -/
structure TileLoopState where
  accepted : Bool
  fail_counter : ℕ
  error_state : ℕ
  pause_state : ℕ
  deriving Repr, DecidableEq

/-- Fresh loop state for one tile unit (stack_acquisition.py,
lines 1454-1455). -/
def tileLoopInit : TileLoopState :=
  { accepted := false, fail_counter := 0, error_state := 0, pause_state := 0 }

/-- The per-tile retry loop of `acquire_grid` (stack_acquisition.py, lines
1458-1474): retry on transient errors 302/303/304/404 with the error state
reset; any other nonzero error pauses and breaks.  After the third transient
failure the `while` guard fails and the loop simply ends. -/
def tile_acq_loop : List TileAttempt → TileLoopState → TileLoopState
  | [], st => st
  | a :: rest, st =>
    if st.accepted = false ∧ st.fail_counter < 3 then
      let st1 : TileLoopState :=
        { st with accepted := a.accepted, error_state := a.error }
      if st1.error_state = 302 ∨ st1.error_state = 303 ∨ st1.error_state = 304
          ∨ st1.error_state = 404 then
        tile_acq_loop rest
          { st1 with fail_counter := st1.fail_counter + 1, error_state := 0 }
      else if st1.error_state > 0 then
        { st1 with pause_state := 1 }
      else
        tile_acq_loop rest st1
    else st

/-- C2 counterexample: a tile unit suffering three consecutive transient
failures (incomplete grab, 303) is *not* escalated to a pause: the loop ends
with the error state reset to 0 and `pause_state` still 0, and the
orchestrator moves on to the next tile. -/
theorem tile_three_transient_failures_no_pause :
    tile_acq_loop [⟨false, 303⟩, ⟨false, 303⟩, ⟨false, 303⟩] tileLoopInit
      = { accepted := false, fail_counter := 3, error_state := 0,
          pause_state := 0 } := by
  rfl

/-- C2 (amended): transient failures are retried up to 3 times per unit.  For
an overview unit (transient classes: incomplete grab 303, load failure 404)
the third consecutive transient failure escalates to a pause.  For a tile
unit (transient classes 302, 303, 304, 404) the third consecutive transient
failure does **not** pause: the tile is abandoned with the error state
cleared and acquisition proceeds; fewer than three failures followed by an
accepted frame end the unit accepted without a pause. -/
theorem transient_retry_policy
    (cfg : OVLoopCfg) (a1 a2 a3 : OVAttempt) (b1 b2 b3 : TileAttempt)
    (ok : OVAttempt) (tok : TileAttempt)
    (h1 : a1.accepted = false ∧ (a1.error = 303 ∨ a1.error = 404) ∧ a1.paused = false)
    (h2 : a2.accepted = false ∧ (a2.error = 303 ∨ a2.error = 404) ∧ a2.paused = false)
    (h3 : a3.accepted = false ∧ (a3.error = 303 ∨ a3.error = 404) ∧ a3.paused = false)
    (g1 : b1.accepted = false ∧ (b1.error = 302 ∨ b1.error = 303 ∨ b1.error = 304
            ∨ b1.error = 404))
    (g2 : b2.accepted = false ∧ (b2.error = 302 ∨ b2.error = 303 ∨ b2.error = 304
            ∨ b2.error = 404))
    (g3 : b3.accepted = false ∧ (b3.error = 302 ∨ b3.error = 303 ∨ b3.error = 304
            ∨ b3.error = 404))
    (hok : ok.accepted = true ∧ ok.error = 0 ∧ ok.paused = false)
    (htok : tok.accepted = true ∧ tok.error = 0) :
    ((ov_acq_loop cfg [a1, a2, a3] ovLoopInit).pause_state = 1
      ∧ (ov_acq_loop cfg [a1, a2, a3] ovLoopInit).fail_counter = 3
      ∧ (ov_acq_loop cfg [a1, a2, a3] ovLoopInit).accepted = false)
    ∧ ((ov_acq_loop cfg [a1, a2, ok] ovLoopInit).accepted = true
      ∧ (ov_acq_loop cfg [a1, a2, ok] ovLoopInit).pause_state = 0)
    ∧ ((tile_acq_loop [b1, b2, b3] tileLoopInit).pause_state = 0
      ∧ (tile_acq_loop [b1, b2, b3] tileLoopInit).accepted = false
      ∧ (tile_acq_loop [b1, b2, b3] tileLoopInit).error_state = 0
      ∧ (tile_acq_loop [b1, b2, b3] tileLoopInit).fail_counter = 3)
    ∧ ((tile_acq_loop [b1, b2, tok] tileLoopInit).accepted = true
      ∧ (tile_acq_loop [b1, b2, tok] tileLoopInit).pause_state = 0) := by
  obtain ⟨a1a, a1e, a1p⟩ := a1
  obtain ⟨a2a, a2e, a2p⟩ := a2
  obtain ⟨a3a, a3e, a3p⟩ := a3
  obtain ⟨b1a, b1e⟩ := b1
  obtain ⟨b2a, b2e⟩ := b2
  obtain ⟨b3a, b3e⟩ := b3
  obtain ⟨oka, oke, okp⟩ := ok
  obtain ⟨toka, toke⟩ := tok
  simp only at h1 h2 h3 g1 g2 g3 hok htok
  obtain ⟨rfl, h1e, rfl⟩ := h1
  obtain ⟨rfl, h2e, rfl⟩ := h2
  obtain ⟨rfl, h3e, rfl⟩ := h3
  obtain ⟨rfl, g1e⟩ := g1
  obtain ⟨rfl, g2e⟩ := g2
  obtain ⟨rfl, g3e⟩ := g3
  obtain ⟨rfl, rfl, rfl⟩ := hok
  obtain ⟨rfl, rfl⟩ := htok
  rcases h1e with rfl | rfl <;> rcases h2e with rfl | rfl <;>
    rcases h3e with rfl | rfl <;>
    rcases g1e with rfl | rfl | rfl | rfl <;>
    rcases g2e with rfl | rfl | rfl | rfl <;>
    rcases g3e with rfl | rfl | rfl | rfl <;>
    exact ⟨⟨rfl, rfl, rfl⟩, ⟨rfl, rfl⟩, ⟨rfl, rfl, rfl, rfl⟩, rfl, rfl⟩

/-- Witness for C2 (amended) at concrete verdicts. -/
theorem transient_retry_policy_witness :
    let cfg : OVLoopCfg :=
      { use_debris_detection := true, first_ov := false, max_number_sweeps := 2 }
    let f : OVAttempt := ⟨false, 303, false⟩
    let g : TileAttempt := ⟨false, 404⟩
    ((ov_acq_loop cfg [f, f, f] ovLoopInit).pause_state = 1
      ∧ (ov_acq_loop cfg [f, f, f] ovLoopInit).fail_counter = 3
      ∧ (ov_acq_loop cfg [f, f, f] ovLoopInit).accepted = false)
    ∧ ((ov_acq_loop cfg [f, f, ⟨true, 0, false⟩] ovLoopInit).accepted = true
      ∧ (ov_acq_loop cfg [f, f, ⟨true, 0, false⟩] ovLoopInit).pause_state = 0)
    ∧ ((tile_acq_loop [g, g, g] tileLoopInit).pause_state = 0
      ∧ (tile_acq_loop [g, g, g] tileLoopInit).accepted = false
      ∧ (tile_acq_loop [g, g, g] tileLoopInit).error_state = 0
      ∧ (tile_acq_loop [g, g, g] tileLoopInit).fail_counter = 3)
    ∧ ((tile_acq_loop [g, g, ⟨true, 0⟩] tileLoopInit).accepted = true
      ∧ (tile_acq_loop [g, g, ⟨true, 0⟩] tileLoopInit).pause_state = 0) :=
  transient_retry_policy _ _ _ _ _ _ _ _ _
    ⟨rfl, Or.inl rfl, rfl⟩ ⟨rfl, Or.inl rfl, rfl⟩ ⟨rfl, Or.inl rfl, rfl⟩
    ⟨rfl, Or.inr (Or.inr (Or.inr rfl))⟩ ⟨rfl, Or.inr (Or.inr (Or.inr rfl))⟩
    ⟨rfl, Or.inr (Or.inr (Or.inr rfl))⟩ ⟨rfl, rfl, rfl⟩ ⟨rfl, rfl⟩

/-! ## `sort_acq_order` (grid_manager.py, lines 597-613) and the tile
(de)selection operations (lines 615-640, 669-688) -/

/-- `sort_acq_order` (grid_manager.py, lines 597-613): walk the grid row by
row, even rows left to right (`range(0, cols, 1)`), odd rows right to left
(`range(cols-1, -1, -1)`), keeping the tiles that are currently active. -/
def sort_acq_order (rows cols : ℕ) (active : List ℕ) : List ℕ :=
  (List.range rows).flatMap (fun row_pos =>
    ((if row_pos % 2 = 0 then List.range cols else (List.range cols).reverse).map
      (fun col_pos => row_pos * cols + col_pos)).filter
        (fun tile_number => decide (tile_number ∈ active)))

/-- The snake enumeration of the whole grid (the tiles `sort_acq_order`
visits, in visiting order). -/
def snake_tiles (rows cols : ℕ) : List ℕ :=
  (List.range rows).flatMap (fun row_pos =>
    (if row_pos % 2 = 0 then List.range cols else (List.range cols).reverse).map
      (fun col_pos => row_pos * cols + col_pos))

theorem filter_flatMap {α β : Type} (l : List α) (f : α → List β) (p : β → Bool) :
    (l.flatMap f).filter p = l.flatMap (fun a => (f a).filter p) := by
  induction l with
  | nil => rfl
  | cons a t ih => simp [List.filter_append, ih]

theorem sort_acq_order_eq_filter_snake (rows cols : ℕ) (active : List ℕ) :
    sort_acq_order rows cols active
      = (snake_tiles rows cols).filter (fun t => decide (t ∈ active)) := by
  rw [snake_tiles, filter_flatMap]
  rfl

theorem flatMap_perm_of_forall_perm {α β : Type} (l : List α) (f g : α → List β)
    (h : ∀ a ∈ l, f a ~ g a) : l.flatMap f ~ l.flatMap g := by
  induction l with
  | nil => rfl
  | cons a t ih =>
    simp only [List.flatMap_cons]
    exact (h a (by simp)).append (ih (fun b hb => h b (by simp [hb])))

theorem range_mul_flatMap (rows cols : ℕ) :
    (List.range rows).flatMap (fun r => (List.range cols).map (fun c => r * cols + c))
      = List.range (rows * cols) := by
  induction rows with
  | zero => simp
  | succ n ih =>
    rw [List.range_succ, List.flatMap_append, ih, Nat.succ_mul, List.range_add]
    simp

theorem snake_tiles_perm_range (rows cols : ℕ) :
    snake_tiles rows cols ~ List.range (rows * cols) := by
  rw [← range_mul_flatMap]
  apply flatMap_perm_of_forall_perm
  intro r _
  by_cases h : r % 2 = 0
  · simp [h]
  · simp only [if_neg h]
    exact ((List.reverse_perm (List.range cols)).map _)

theorem snake_tiles_nodup (rows cols : ℕ) : (snake_tiles rows cols).Nodup :=
  ((snake_tiles_perm_range rows cols).nodup_iff).mpr (List.nodup_range _)

theorem mem_snake_tiles {rows cols t : ℕ} :
    t ∈ snake_tiles rows cols ↔ t < rows * cols := by
  rw [(snake_tiles_perm_range rows cols).mem_iff, List.mem_range]

/-- Filtering a duplicate-free enumeration by membership in a duplicate-free
sublist of it produces a permutation of that sublist. -/
theorem filter_mem_perm {L A : List ℕ} (hL : L.Nodup) (hA : A.Nodup)
    (hsub : ∀ a ∈ A, a ∈ L) :
    L.filter (fun t => decide (t ∈ A)) ~ A := by
  apply List.perm_of_nodup_nodup_toFinset_eq (hL.filter _) hA
  ext x
  simp only [List.mem_toFinset, List.mem_filter, decide_eq_true_eq]
  exact ⟨fun h => h.2, fun h => ⟨hsub x h, h⟩⟩

/-- The central reordering fact: on a well-formed active-tile list (no
duplicates, all indices inside the grid), `sort_acq_order` returns a
permutation of it. -/
theorem sort_acq_order_perm {rows cols : ℕ} {active : List ℕ}
    (hnd : active.Nodup) (hb : ∀ t ∈ active, t < rows * cols) :
    sort_acq_order rows cols active ~ active := by
  rw [sort_acq_order_eq_filter_snake]
  exact filter_mem_perm (snake_tiles_nodup rows cols) hnd
    (fun a ha => mem_snake_tiles.mpr (hb a ha))

/-- C5: `sort_acq_order` reorders the active tiles into boustrophedon order:
it permutes the active list, its result is row 0's active tiles in increasing
column order, then row 1's in decreasing order, alternating per row; and on
the 2×3 grid with tile 3 deactivated the order is `[0, 1, 2, 5, 4]`. -/
theorem sort_acq_order_boustrophedon (rows cols : ℕ) (active : List ℕ)
    (hnd : active.Nodup) (hb : ∀ t ∈ active, t < rows * cols) :
    sort_acq_order rows cols active ~ active
    ∧ sort_acq_order rows cols active
        = (List.range rows).flatMap (fun r =>
            let rowActive := ((List.range cols).map (fun c => r * cols + c)).filter
              (fun t => decide (t ∈ active))
            if r % 2 = 0 then rowActive else rowActive.reverse)
    ∧ sort_acq_order 2 3 [0, 1, 2, 4, 5] = [0, 1, 2, 5, 4] := by
  refine ⟨sort_acq_order_perm hnd hb, ?_, by decide⟩
  unfold sort_acq_order
  apply congrArg
  funext r
  by_cases h : r % 2 = 0
  · simp [h]
  · simp [h, List.map_reverse, List.filter_reverse]

/-- Witness for C5 on the 2×3 example grid. -/
theorem sort_acq_order_boustrophedon_witness :
    sort_acq_order 2 3 [0, 1, 2, 4, 5] ~ [0, 1, 2, 4, 5]
    ∧ sort_acq_order 2 3 [0, 1, 2, 4, 5]
        = (List.range 2).flatMap (fun r =>
            let rowActive := ((List.range 3).map (fun c => r * 3 + c)).filter
              (fun t => decide (t ∈ [0, 1, 2, 4, 5]))
            if r % 2 = 0 then rowActive else rowActive.reverse)
    ∧ sort_acq_order 2 3 [0, 1, 2, 4, 5] = [0, 1, 2, 5, 4] :=
  sort_acq_order_boustrophedon 2 3 [0, 1, 2, 4, 5] (by decide) (by decide)

/-- The per-grid state touched by the tile (de)selection operations: the
active-tile list, its cached count, and the active flags stored in
`grid_map_d[...][2]`. -/
structure TileOpsState where
  rows : ℕ
  cols : ℕ
  active_tiles : List ℕ
  number_active_tiles : ℕ
  map_active : ℕ → Bool

/-- The invariant of C9: `len(active_tiles) == number_active_tiles`. -/
def CountInv (st : TileOpsState) : Prop :=
  st.active_tiles.length = st.number_active_tiles

instance (st : TileOpsState) : Decidable (CountInv st) := by
  unfold CountInv; infer_instance

/-- Re-sort the active tiles in place (`self.sort_acq_order(grid_number)`). -/
def sort_acq_order_op (st : TileOpsState) : TileOpsState :=
  { st with active_tiles := sort_acq_order st.rows st.cols st.active_tiles }

/-- `select_tile` (grid_manager.py, lines 615-622): set the grid-map active
flag, append to `active_tiles`, increment the count, then re-sort. -/
def select_tile (st : TileOpsState) (tile_number : ℕ) : TileOpsState :=
  sort_acq_order_op { st with
    map_active := Function.update st.map_active tile_number true,
    active_tiles := st.active_tiles ++ [tile_number],
    number_active_tiles := st.number_active_tiles + 1 }

/-- `deselect_tile` (grid_manager.py, lines 624-631): clear the grid-map
active flag, remove the first occurrence from `active_tiles` (Python
`list.remove`; it raises `ValueError` when the tile is absent, so the embed
is faithful on the `tile_number ∈ active_tiles` precondition), decrement the
count, then re-sort. -/
def deselect_tile (st : TileOpsState) (tile_number : ℕ) : TileOpsState :=
  sort_acq_order_op { st with
    map_active := Function.update st.map_active tile_number false,
    active_tiles := st.active_tiles.erase tile_number,
    number_active_tiles := st.number_active_tiles - 1 }

/-- `toggle_tile` (grid_manager.py, lines 633-640): deselect when the
grid-map flag is set, select otherwise. -/
def toggle_tile (st : TileOpsState) (tile_number : ℕ) : TileOpsState :=
  if st.map_active tile_number then
    deselect_tile st tile_number
  else
    select_tile st tile_number

/-- `reset_active_tiles` (grid_manager.py, lines 669-676). -/
def reset_active_tiles (st : TileOpsState) : TileOpsState :=
  { st with
    active_tiles := [],
    map_active := fun i => if i < st.rows * st.cols then false else st.map_active i,
    number_active_tiles := 0 }

/-- `select_all_tiles` (grid_manager.py, lines 678-688): activate every tile
index in order, re-sort, then set the count to the length of the list. -/
def select_all_tiles (st : TileOpsState) : TileOpsState :=
  let st1 := { st with
    active_tiles := List.range (st.rows * st.cols),
    map_active := fun i => if i < st.rows * st.cols then true else st.map_active i }
  let st2 := sort_acq_order_op st1
  { st2 with number_active_tiles := st2.active_tiles.length }

/-- C9 counterexample: `select_tile` on an *already active* tile breaks the
invariant `len(active_tiles) == number_active_tiles`: the appended duplicate
is collapsed by the snake re-sort while the cached count is still
incremented.  Concretely, on a 2×2 grid with tiles 0 and 1 active, selecting
tile 0 again leaves `active_tiles = [0, 1]` but `number_active_tiles = 3`. -/
theorem select_tile_active_breaks_invariant :
    let st : TileOpsState :=
      { rows := 2, cols := 2, active_tiles := [0, 1],
        number_active_tiles := 2, map_active := fun i => decide (i < 2) }
    CountInv st
    ∧ (select_tile st 0).active_tiles = [0, 1]
    ∧ (select_tile st 0).number_active_tiles = 3
    ∧ ¬ CountInv (select_tile st 0) := by
  refine ⟨by decide, by decide, by decide, by decide⟩

/-- C9 (amended): the invariant `len(active_tiles) == number_active_tiles`
is preserved by every mutating operation **under the intended-use
preconditions**: the active list is duplicate-free and within the grid, and
`select_tile` is applied to a tile that is not currently active,
`deselect_tile` to one that is (`toggle_tile` guarantees this through the
grid-map flag when that flag agrees with list membership); `set_grid_size`,
`reset_active_tiles` and `select_all_tiles` (re)establish the invariant
unconditionally. -/
theorem tile_ops_preserve_count_invariant (st : TileOpsState) (t : ℕ)
    (hinv : CountInv st) (hnd : st.active_tiles.Nodup)
    (hb : ∀ u ∈ st.active_tiles, u < st.rows * st.cols) :
    (t < st.rows * st.cols → t ∉ st.active_tiles → CountInv (select_tile st t))
    ∧ (t ∈ st.active_tiles → CountInv (deselect_tile st t))
    ∧ (t < st.rows * st.cols
        → (st.map_active t = true ↔ t ∈ st.active_tiles)
        → CountInv (toggle_tile st t))
    ∧ CountInv (reset_active_tiles st)
    ∧ CountInv (select_all_tiles st)
    ∧ (∀ (gs : GridSizeState) (nr nc : ℕ),
        gs.active_tiles.length = gs.number_active_tiles →
        (set_grid_size gs nr nc).active_tiles.length
          = (set_grid_size gs nr nc).number_active_tiles) := by
  have hsel : t < st.rows * st.cols → t ∉ st.active_tiles
      → CountInv (select_tile st t) := by
    intro ht hnotmem
    unfold select_tile sort_acq_order_op CountInv
    have hnd' : (st.active_tiles ++ [t]).Nodup := by
      simp [List.nodup_append, hnd, hnotmem]
    have hb' : ∀ u ∈ st.active_tiles ++ [t], u < st.rows * st.cols := by
      intro u hu
      rcases List.mem_append.mp hu with h | h
      · exact hb u h
      · simp only [List.mem_singleton] at h
        exact h ▸ ht
    have := (@sort_acq_order_perm st.rows st.cols _ hnd' hb').length_eq
    simp only [this, List.length_append, List.length_singleton]
    rw [hinv]
  have hdes : t ∈ st.active_tiles → CountInv (deselect_tile st t) := by
    intro hmem
    unfold deselect_tile sort_acq_order_op CountInv
    have hnd' : (st.active_tiles.erase t).Nodup := hnd.erase t
    have hb' : ∀ u ∈ st.active_tiles.erase t, u < st.rows * st.cols :=
      fun u hu => hb u (List.mem_of_mem_erase hu)
    have := (@sort_acq_order_perm st.rows st.cols _ hnd' hb').length_eq
    have hinv' : st.active_tiles.length = st.number_active_tiles := hinv
    have hlen : 0 < st.active_tiles.length := List.length_pos_of_mem hmem
    simp only [this, List.length_erase_of_mem hmem]
    omega
  refine ⟨hsel, hdes, ?_, ?_, ?_, ?_⟩
  · intro ht hcons
    unfold toggle_tile
    by_cases h : st.map_active t = true
    · rw [if_pos h]
      exact hdes (hcons.mp h)
    · rw [if_neg h]
      exact hsel ht (fun hmem => h (hcons.mpr hmem))
  · unfold reset_active_tiles CountInv
    rfl
  · unfold select_all_tiles sort_acq_order_op CountInv
    rfl
  · intro gs nr nc hgs
    unfold set_grid_size
    by_cases h : (gs.rows, gs.cols) ≠ (nr, nc)
    · rw [if_pos h]
    · rw [if_neg h]
      exact hgs

/-- Witness for C9 (amended) on a concrete 2×2 grid state. -/
theorem tile_ops_preserve_count_invariant_witness :
    let st : TileOpsState :=
      { rows := 2, cols := 2, active_tiles := [0, 1],
        number_active_tiles := 2, map_active := fun i => decide (i < 2) }
    (3 < st.rows * st.cols → 3 ∉ st.active_tiles → CountInv (select_tile st 3))
    ∧ (3 ∈ st.active_tiles → CountInv (deselect_tile st 3))
    ∧ (3 < st.rows * st.cols
        → (st.map_active 3 = true ↔ 3 ∈ st.active_tiles)
        → CountInv (toggle_tile st 3))
    ∧ CountInv (reset_active_tiles st)
    ∧ CountInv (select_all_tiles st)
    ∧ (∀ (gs : GridSizeState) (nr nc : ℕ),
        gs.active_tiles.length = gs.number_active_tiles →
        (set_grid_size gs nr nc).active_tiles.length
          = (set_grid_size gs nr nc).number_active_tiles) :=
  tile_ops_preserve_count_invariant _ 3 (by decide) (by decide) (by decide)

/-! ## `calculate_grid_map` (grid_manager.py, lines 466-498) -/

/-- The per-grid parameters read by `calculate_grid_map`. -/
structure Grid where
  rows : ℕ
  cols : ℕ
  tile_width_p : ℤ
  tile_height_p : ℤ
  pixel_size : ℚ
  overlap : ℤ
  row_shift : ℤ
  active_tiles : List ℕ
  origin_wd : ℚ
  af_gradient_x : ℚ
  af_gradient_y : ℚ
  af_active : Bool

/-- One entry of the SEM-coordinate grid map `grid_map_d`:
x, y, active flag, working distance. -/
structure StageMapEntry where
  x : ℚ
  y : ℚ
  active : Bool
  wd : ℚ
  deriving Repr, DecidableEq

/-- `tile_number = x_pos + y_pos * cols` for a loop iteration `(y_pos, x_pos)`
(grid_manager.py, line 476). -/
def tileKey (cols : ℕ) (yx : ℕ × ℕ) : ℕ := yx.2 + yx.1 * cols

/-- The pixel grid-map entry written for iteration `(y_pos, x_pos)`
(grid_manager.py, lines 477-487). -/
def pixel_entry (g : Grid) (yx : ℕ × ℕ) : ℤ × ℤ :=
  let x_coord := (yx.2 : ℤ) * (g.tile_width_p - g.overlap)
  let y_coord := (yx.1 : ℤ) * (g.tile_height_p - g.overlap)
  let x_shift := g.row_shift * ((yx.1 : ℤ) % 2)
  (x_coord + x_shift, y_coord)

/-- The SEM-coordinate grid-map entry written for iteration `(y_pos, x_pos)`
(grid_manager.py, lines 488-498).  Note the working-distance gradient is read
from `af_gradient` unconditionally. -/
def stage_entry (g : Grid) (yx : ℕ × ℕ) : StageMapEntry :=
  let x_coord := (yx.2 : ℤ) * (g.tile_width_p - g.overlap)
  let y_coord := (yx.1 : ℤ) * (g.tile_height_p - g.overlap)
  let x_shift := g.row_shift * ((yx.1 : ℤ) % 2)
  { x := ((x_coord + x_shift : ℤ) : ℚ) * g.pixel_size / 1000,
    y := ((y_coord : ℤ) : ℚ) * g.pixel_size / 1000,
    active := decide ((yx.2 + yx.1 * g.cols) ∈ g.active_tiles),
    wd := g.origin_wd + (yx.2 : ℚ) * g.af_gradient_x + (yx.1 : ℚ) * g.af_gradient_y }

/-- `calculate_grid_map`, pixel half: the nested loops write
`grid_map_p[tile_number]` for every `(y_pos, x_pos)`. -/
def calculate_grid_map_p (g : Grid) (m0 : ℕ → Option (ℤ × ℤ)) :
    ℕ → Option (ℤ × ℤ) :=
  writeFold (tileKey g.cols) (fun yx => some (pixel_entry g yx))
    (gridIters g.rows g.cols) m0

/-- `calculate_grid_map`, SEM-coordinate half: the nested loops write
`grid_map_d[tile_number]` for every `(y_pos, x_pos)`. -/
def calculate_grid_map_d (g : Grid) (m0 : ℕ → Option StageMapEntry) :
    ℕ → Option StageMapEntry :=
  writeFold (tileKey g.cols) (fun yx => some (stage_entry g yx))
    (gridIters g.rows g.cols) m0

/-- Looking up tile `c + r*cols` after the nested-loop writes returns the
entry written at iteration `(r, c)`. -/
theorem gridIters_writeFold_lookup {α : Type} {rows cols r c : ℕ}
    (hr : r < rows) (hc : c < cols) (val : ℕ × ℕ → α) (m0 : ℕ → α) :
    writeFold (tileKey cols) val (gridIters rows cols) m0 (c + r * cols)
      = val (r, c) := by
  have hkey : tileKey cols (r, c) = c + r * cols := rfl
  rw [← hkey]
  apply writeFold_eq_of_mem
  · exact mem_gridIters.mpr ⟨hr, hc⟩
  · exact gridIters_nodup rows cols
  · rintro ⟨y, x⟩ hmem hk
    obtain ⟨-, hx⟩ := mem_gridIters.mp hmem
    simp only [tileKey] at hk
    have hx' : (x + y * cols) % cols = x := by
      rw [Nat.add_mul_mod_self_right, Nat.mod_eq_of_lt hx]
    have hc' : (c + r * cols) % cols = c := by
      rw [Nat.add_mul_mod_self_right, Nat.mod_eq_of_lt hc]
    have hxc : x = c := by rw [← hx', hk, hc']
    have hyr : y = r := by
      have hcols : 0 < cols := lt_of_le_of_lt (Nat.zero_le c) hc
      have : y * cols = r * cols := by omega
      exact Nat.eq_of_mul_eq_mul_right hcols this
    simp [hxc, hyr]

/-- C6: `calculate_grid_map` assigns tile `col + row*cols` the pixel position
`(col*(tile_width_px - overlap) + row_shift*(row mod 2),
row*(tile_height_px - overlap))` and a stage-space position equal to these
pixel coordinates times `pixel_size/1000`. -/
theorem calculate_grid_map_positions (g : Grid)
    (m0p : ℕ → Option (ℤ × ℤ)) (m0d : ℕ → Option StageMapEntry)
    (r c : ℕ) (hr : r < g.rows) (hc : c < g.cols) :
    calculate_grid_map_p g m0p (c + r * g.cols)
        = some ((c : ℤ) * (g.tile_width_p - g.overlap)
                  + g.row_shift * ((r : ℤ) % 2),
                (r : ℤ) * (g.tile_height_p - g.overlap))
    ∧ (calculate_grid_map_d g m0d (c + r * g.cols)).map (fun e => (e.x, e.y))
        = some ((((c : ℤ) * (g.tile_width_p - g.overlap)
                    + g.row_shift * ((r : ℤ) % 2) : ℤ) : ℚ) * g.pixel_size / 1000,
                (((r : ℤ) * (g.tile_height_p - g.overlap) : ℤ) : ℚ)
                  * g.pixel_size / 1000) := by
  constructor
  · rw [calculate_grid_map_p, gridIters_writeFold_lookup hr hc]
    rfl
  · rw [calculate_grid_map_d, gridIters_writeFold_lookup hr hc]
    rfl

/-- Witness for C6 on a concrete grid. -/
theorem calculate_grid_map_positions_witness :
    let g : Grid :=
      { rows := 2, cols := 3, tile_width_p := 4096, tile_height_p := 3072,
        pixel_size := 10, overlap := 200, row_shift := 100,
        active_tiles := [0, 4], origin_wd := 5, af_gradient_x := 0,
        af_gradient_y := 0, af_active := false }
    calculate_grid_map_p g (fun _ => none) (1 + 1 * g.cols)
        = some ((1 : ℤ) * (g.tile_width_p - g.overlap)
                  + g.row_shift * ((1 : ℤ) % 2),
                (1 : ℤ) * (g.tile_height_p - g.overlap))
    ∧ (calculate_grid_map_d g (fun _ => none) (1 + 1 * g.cols)).map
          (fun e => (e.x, e.y))
        = some ((((1 : ℤ) * (g.tile_width_p - g.overlap)
                    + g.row_shift * ((1 : ℤ) % 2) : ℤ) : ℚ) * g.pixel_size / 1000,
                (((1 : ℤ) * (g.tile_height_p - g.overlap) : ℤ) : ℚ)
                  * g.pixel_size / 1000) :=
  calculate_grid_map_positions _ _ _ 1 1 (by decide) (by decide)

/-- A 1×2 grid whose adaptive focus is disabled while the stored gradient is
nonzero (reachable: compute a focus map, then disable adaptive focus — the
gradient is not reset). -/
def c7Grid : Grid :=
  { rows := 1, cols := 2, tile_width_p := 4096, tile_height_p := 3072,
    pixel_size := 10, overlap := 200, row_shift := 0,
    active_tiles := [], origin_wd := 5, af_gradient_x := 1,
    af_gradient_y := 0, af_active := false }

/-- C7 counterexample: `calculate_grid_map` reads the stored
`af_gradient` regardless of the `use_adaptive_focus` flag.  A grid with
adaptive focus disabled but a nonzero stored gradient gets tile working
distances different from `origin_wd`: here tile 1 gets wd 6, not 5. -/
theorem calculate_grid_map_wd_counterexample :
    c7Grid.af_active = false
    ∧ (calculate_grid_map_d c7Grid (fun _ => none) 1).map (fun e => e.wd) = some 6
    ∧ c7Grid.origin_wd = 5
    ∧ (6 : ℚ) ≠ 5 := by
  refine ⟨rfl, ?_, rfl, by norm_num⟩
  have h := @gridIters_writeFold_lookup (Option StageMapEntry) 1 2 0 1
    (by decide) (by decide) (fun yx => some (stage_entry c7Grid yx)) (fun _ => none)
  have h1 : calculate_grid_map_d c7Grid (fun _ => none) 1
      = some (stage_entry c7Grid (0, 1)) := h
  rw [h1]
  norm_num [stage_entry, c7Grid]

/-- C7 (amended): `calculate_grid_map` assigns tile `col + row*cols` the
working distance `origin_wd + col*dWD/dx + row*dWD/dy` where the gradient is
the grid's *stored* `af_gradient`, irrespective of whether adaptive focus is
enabled; consequently every tile's working distance equals `origin_wd`
exactly when the stored gradient is zero (as it is for a freshly added
grid). -/
theorem calculate_grid_map_wd (g : Grid) (m0 : ℕ → Option StageMapEntry)
    (r c : ℕ) (hr : r < g.rows) (hc : c < g.cols) :
    (calculate_grid_map_d g m0 (c + r * g.cols)).map (fun e => e.wd)
        = some (g.origin_wd + (c : ℚ) * g.af_gradient_x
                  + (r : ℚ) * g.af_gradient_y)
    ∧ (g.af_gradient_x = 0 → g.af_gradient_y = 0 →
        (calculate_grid_map_d g m0 (c + r * g.cols)).map (fun e => e.wd)
          = some g.origin_wd) := by
  have h : (calculate_grid_map_d g m0 (c + r * g.cols)).map (fun e => e.wd)
      = some (g.origin_wd + (c : ℚ) * g.af_gradient_x
                + (r : ℚ) * g.af_gradient_y) := by
    rw [calculate_grid_map_d, gridIters_writeFold_lookup hr hc]
    rfl
  refine ⟨h, fun hx hy => ?_⟩
  rw [h, hx, hy]
  norm_num

/-- Witness for C7 (amended) on a concrete grid with zero stored gradient. -/
theorem calculate_grid_map_wd_witness :
    let g : Grid :=
      { rows := 2, cols := 2, tile_width_p := 1024, tile_height_p := 768,
        pixel_size := 10, overlap := 0, row_shift := 0,
        active_tiles := [0], origin_wd := 7, af_gradient_x := 0,
        af_gradient_y := 0, af_active := false }
    ((calculate_grid_map_d g (fun _ => none) (1 + 1 * g.cols)).map (fun e => e.wd)
        = some (g.origin_wd + (1 : ℚ) * g.af_gradient_x
                  + (1 : ℚ) * g.af_gradient_y))
    ∧ (g.af_gradient_x = 0 → g.af_gradient_y = 0 →
        (calculate_grid_map_d g (fun _ => none) (1 + 1 * g.cols)).map
            (fun e => e.wd)
          = some g.origin_wd) :=
  calculate_grid_map_wd _ _ 1 1 (by decide) (by decide)

/-! ## `calculate_focus_map` (grid_manager.py, lines 515-564) -/

/-- The per-grid state touched by `calculate_focus_map`: the grid dimensions,
the three adaptive-focus reference tiles `af_tiles` (ints; `-1` when
unconfigured), the stored gradient, the origin working distance, and the
per-tile working distances `grid_map_d[...][3]`. -/
structure FocusState where
  rows : ℕ
  cols : ℕ
  t0 : ℤ
  t1 : ℤ
  t2 : ℤ
  af_gradient_x : ℚ
  af_gradient_y : ℚ
  origin_wd : ℚ
  wd_map : ℤ → ℚ

/-- `wd_delta_x = (wd[t1] - wd[t0]) / x_diff` with `x_diff = t1 - t0`
(grid_manager.py, lines 524-527). -/
def wd_delta_x (st : FocusState) : ℚ :=
  (st.wd_map st.t1 - st.wd_map st.t0) / ((st.t1 - st.t0 : ℤ) : ℚ)

/-- `y_diff = (af_tiles[2] - af_tiles[0]) // row_length`
(grid_manager.py, line 534); Python `//` is `Int.fdiv`. -/
def y_diff (st : FocusState) : ℤ := (st.t2 - st.t0).fdiv (st.cols : ℤ)

/-- `wd_delta_y = (wd[t2] - wd[t0]) / y_diff`
(grid_manager.py, lines 535-537). -/
def wd_delta_y (st : FocusState) : ℚ :=
  (st.wd_map st.t2 - st.wd_map st.t0) / ((y_diff st : ℤ) : ℚ)

/-- The back-solved working distance at the tiling origin
(grid_manager.py, lines 545-552): `wd[t0] - col(t0)*wd_delta_x -
row(t0)*wd_delta_y`; Python `%` and `//` are `Int.fmod` / `Int.fdiv`. -/
def focus_origin_wd (st : FocusState) : ℚ :=
  st.wd_map st.t0 - (st.t0.fmod (st.cols : ℤ) : ℚ) * wd_delta_x st
    - (st.t0.fdiv (st.cols : ℤ) : ℚ) * wd_delta_y st

/-- The full working-distance map rewrite (grid_manager.py, lines 554-561):
`grid_map_d[y*row_length + x][3] = origin + x*wd_delta_x + y*wd_delta_y`
for every `(y, x)` of the grid; entries outside the loop are untouched. -/
def focus_new_wd_map (st : FocusState) : ℤ → ℚ :=
  writeFold (fun yx : ℕ × ℕ => ((yx.1 * st.cols + yx.2 : ℕ) : ℤ))
    (fun yx => focus_origin_wd st + (yx.2 : ℚ) * wd_delta_x st
      + (yx.1 : ℚ) * wd_delta_y st)
    (gridIters st.rows st.cols) st.wd_map

/-- `calculate_focus_map` (grid_manager.py, lines 515-564): `success` is
`t0 >= 0` together with `t1 > t0` in the same row (`//` of the column count)
and `t2 > t0` in the same column (`%` of the column count); on success the
gradient, origin working distance and working-distance map are recomputed,
otherwise the state is returned untouched with `success = False`. -/
def calculate_focus_map (st : FocusState) : Bool × FocusState :=
  if 0 ≤ st.t0 then
    if (st.t0 < st.t1
          ∧ st.t0.fdiv (st.cols : ℤ) = st.t1.fdiv (st.cols : ℤ))
        ∧ (st.t0 < st.t2
            ∧ st.t0.fmod (st.cols : ℤ) = st.t2.fmod (st.cols : ℤ)) then
      (true,
        { st with af_gradient_x := wd_delta_x st, af_gradient_y := wd_delta_y st,
                  origin_wd := focus_origin_wd st, wd_map := focus_new_wd_map st })
    else (false, st)
  else (false, st)

/-- The validity condition of `calculate_focus_map`: the feature is
configured (`t0 ≥ 0`), `t1` is strictly right of `t0` in the same row, and
`t2` is strictly below `t0` in the same column. -/
def FocusValid (st : FocusState) : Prop :=
  0 ≤ st.t0
    ∧ (st.t0 < st.t1 ∧ st.t0.fdiv (st.cols : ℤ) = st.t1.fdiv (st.cols : ℤ))
    ∧ (st.t0 < st.t2 ∧ st.t0.fmod (st.cols : ℤ) = st.t2.fmod (st.cols : ℤ))

instance (st : FocusState) : Decidable (FocusValid st) := by
  unfold FocusValid; infer_instance

/-- ℤ-keyed version of the nested-loop lookup: reading the rewritten working
distance map at a tile index `t` inside the grid returns the value written
for iteration `(t // cols, t % cols)`. -/
theorem gridIters_writeFoldZ_lookup {α : Type} {rows cols : ℕ} {r c : ℕ}
    (hr : r < rows) (hc : c < cols) (val : ℕ × ℕ → α) (m0 : ℤ → α) :
    writeFold (fun yx : ℕ × ℕ => ((yx.1 * cols + yx.2 : ℕ) : ℤ)) val
      (gridIters rows cols) m0 ((r * cols + c : ℕ) : ℤ) = val (r, c) := by
  have hkey : (fun yx : ℕ × ℕ => ((yx.1 * cols + yx.2 : ℕ) : ℤ)) (r, c)
      = ((r * cols + c : ℕ) : ℤ) := rfl
  rw [← hkey]
  apply writeFold_eq_of_mem
  · exact mem_gridIters.mpr ⟨hr, hc⟩
  · exact gridIters_nodup rows cols
  · rintro ⟨y, x⟩ hmem hk
    obtain ⟨-, hx⟩ := mem_gridIters.mp hmem
    simp only [Int.natCast_inj] at hk
    have hx' : (y * cols + x) % cols = x := by
      rw [Nat.add_comm, Nat.add_mul_mod_self_right, Nat.mod_eq_of_lt hx]
    have hc' : (r * cols + c) % cols = c := by
      rw [Nat.add_comm, Nat.add_mul_mod_self_right, Nat.mod_eq_of_lt hc]
    have hxc : x = c := by rw [← hx', hk, hc']
    have hcols : 0 < cols := lt_of_le_of_lt (Nat.zero_le c) hc
    have hyr : y = r := by
      have : y * cols = r * cols := by omega
      exact Nat.eq_of_mul_eq_mul_right hcols this
    simp [hxc, hyr]

theorem gridIters_writeFoldZ_lookup_int {α : Type} {rows cols : ℕ}
    (hcols : 0 < cols) {t : ℤ} (h0 : 0 ≤ t) (hlt : t < (rows : ℤ) * cols)
    (val : ℕ × ℕ → α) (m0 : ℤ → α) :
    writeFold (fun yx : ℕ × ℕ => ((yx.1 * cols + yx.2 : ℕ) : ℤ)) val
      (gridIters rows cols) m0 t
      = val ((t / (cols : ℤ)).toNat, (t % (cols : ℤ)).toNat) := by
  have hZcols : (0 : ℤ) < (cols : ℤ) := by exact_mod_cast hcols
  have hdnn : 0 ≤ t / (cols : ℤ) := Int.ediv_nonneg h0 (le_of_lt hZcols)
  have hmnn : 0 ≤ t % (cols : ℤ) := Int.emod_nonneg t (ne_of_gt hZcols)
  have hdlt : t / (cols : ℤ) < (rows : ℤ) :=
    (Int.ediv_lt_iff_lt_mul hZcols).mpr hlt
  have hmlt : t % (cols : ℤ) < (cols : ℤ) := Int.emod_lt_of_pos t hZcols
  have hrn : ((t / (cols : ℤ)).toNat : ℤ) = t / (cols : ℤ) :=
    Int.toNat_of_nonneg hdnn
  have hcn : ((t % (cols : ℤ)).toNat : ℤ) = t % (cols : ℤ) :=
    Int.toNat_of_nonneg hmnn
  have hkey : (((t / (cols : ℤ)).toNat * cols + (t % (cols : ℤ)).toNat : ℕ) : ℤ)
      = t := by
    push_cast [hrn, hcn]
    have := Int.ediv_add_emod t (cols : ℤ)
    linarith
  have hr : (t / (cols : ℤ)).toNat < rows := by
    have : ((t / (cols : ℤ)).toNat : ℤ) < (rows : ℤ) := by rw [hrn]; exact hdlt
    exact_mod_cast this
  have hc : (t % (cols : ℤ)).toNat < cols := by
    have : ((t % (cols : ℤ)).toNat : ℤ) < (cols : ℤ) := by rw [hcn]; exact hmlt
    exact_mod_cast this
  have h2 := gridIters_writeFoldZ_lookup hr hc val m0
  rw [hkey] at h2
  exact h2

/-- C4: `calculate_focus_map` returns `false` and leaves the gradient, the
origin working distance and the per-tile working-distance map unchanged when
`t1` is not strictly right of `t0` in the same row, or `t2` is not strictly
below `t0` in the same column, or `t0 < 0`; otherwise it returns `true`,
sets the gradient to `((wd[t1]-wd[t0])/(t1-t0), (wd[t2]-wd[t0])/((t2-t0)/cols))`,
and the recomputed working-distance map reproduces the previously stored
working distance at all three reference tiles. -/
theorem calculate_focus_map_spec (st : FocusState)
    (hcols : 0 < st.cols)
    (ht0 : st.t0 < ((st.rows * st.cols : ℕ) : ℤ))
    (ht2 : st.t2 < ((st.rows * st.cols : ℕ) : ℤ)) :
    (¬ FocusValid st → calculate_focus_map st = (false, st))
    ∧ (FocusValid st →
        (calculate_focus_map st).1 = true
        ∧ (calculate_focus_map st).2.af_gradient_x
            = (st.wd_map st.t1 - st.wd_map st.t0) / ((st.t1 : ℚ) - (st.t0 : ℚ))
        ∧ (calculate_focus_map st).2.af_gradient_y
            = (st.wd_map st.t2 - st.wd_map st.t0)
                / (((st.t2 : ℚ) - (st.t0 : ℚ)) / (st.cols : ℚ))
        ∧ (calculate_focus_map st).2.wd_map st.t0 = st.wd_map st.t0
        ∧ (calculate_focus_map st).2.wd_map st.t1 = st.wd_map st.t1
        ∧ (calculate_focus_map st).2.wd_map st.t2 = st.wd_map st.t2) := by
  have hZ : (0 : ℤ) < (st.cols : ℤ) := by exact_mod_cast hcols
  constructor
  · intro hnv
    unfold calculate_focus_map
    by_cases h0 : 0 ≤ st.t0
    · rw [if_pos h0, if_neg (fun hcc => hnv ⟨h0, hcc.1, hcc.2⟩)]
    · rw [if_neg h0]
  · intro hv
    obtain ⟨h0, ⟨h1a, h1b⟩, h2a, h2b⟩ := hv
    have hres : calculate_focus_map st
        = (true, { st with
                   af_gradient_x := wd_delta_x st,
                   af_gradient_y := wd_delta_y st,
                   origin_wd := focus_origin_wd st,
                   wd_map := focus_new_wd_map st }) := by
      unfold calculate_focus_map
      rw [if_pos h0, if_pos ⟨⟨h1a, h1b⟩, h2a, h2b⟩]
    rw [hres]
    have hCQ : ((st.cols : ℤ) : ℚ) ≠ 0 := by
      exact_mod_cast ne_of_gt hZ
    have hColsQ : ((st.cols : ℕ) : ℚ) ≠ 0 := by
      have hpos : (0 : ℚ) < ((st.cols : ℕ) : ℚ) := by exact_mod_cast hcols
      exact ne_of_gt hpos
    -- floor-division / floor-modulus agree with euclidean ones here
    have hfd0 : st.t0.fdiv (st.cols : ℤ) = st.t0 / (st.cols : ℤ) :=
      Int.fdiv_eq_ediv _ (le_of_lt hZ)
    have hfd1 : st.t1.fdiv (st.cols : ℤ) = st.t1 / (st.cols : ℤ) :=
      Int.fdiv_eq_ediv _ (le_of_lt hZ)
    have hfm0 : st.t0.fmod (st.cols : ℤ) = st.t0 % (st.cols : ℤ) :=
      Int.fmod_eq_emod _ (le_of_lt hZ)
    have hfm2 : st.t2.fmod (st.cols : ℤ) = st.t2 % (st.cols : ℤ) :=
      Int.fmod_eq_emod _ (le_of_lt hZ)
    have hdiv1 : st.t1 / (st.cols : ℤ) = st.t0 / (st.cols : ℤ) := by
      rw [← hfd0, ← hfd1, h1b]
    have hm2 : st.t2 % (st.cols : ℤ) = st.t0 % (st.cols : ℤ) := by
      rw [← hfm0, ← hfm2, h2b]
    have e0 := Int.ediv_add_emod st.t0 (st.cols : ℤ)
    have e1 := Int.ediv_add_emod st.t1 (st.cols : ℤ)
    have e2 := Int.ediv_add_emod st.t2 (st.cols : ℤ)
    have hsub1 : st.t1 - st.t0
        = st.t1 % (st.cols : ℤ) - st.t0 % (st.cols : ℤ) := by
      rw [hdiv1] at e1
      linarith
    have hsub2 : st.t2 - st.t0
        = (st.cols : ℤ) * (st.t2 / (st.cols : ℤ) - st.t0 / (st.cols : ℤ)) := by
      rw [hm2] at e2
      have hexp : (st.cols : ℤ) * (st.t2 / (st.cols : ℤ) - st.t0 / (st.cols : ℤ))
          = (st.cols : ℤ) * (st.t2 / (st.cols : ℤ))
            - (st.cols : ℤ) * (st.t0 / (st.cols : ℤ)) := by ring
      linarith
    have hydiff : y_diff st = st.t2 / (st.cols : ℤ) - st.t0 / (st.cols : ℤ) := by
      unfold y_diff
      rw [Int.fdiv_eq_ediv _ (le_of_lt hZ), hsub2,
        Int.mul_ediv_cancel_left _ (ne_of_gt hZ)]
    have hydpos : 0 < y_diff st := by
      by_contra hle
      push_neg at hle
      rw [hydiff] at hle
      have : st.t2 - st.t0 ≤ 0 := by
        rw [hsub2]
        exact mul_nonpos_of_nonneg_of_nonpos (le_of_lt hZ) hle
      omega
    have hyne : ((y_diff st : ℤ) : ℚ) ≠ 0 := by
      exact_mod_cast ne_of_gt hydpos
    -- bounds needed for the three lookups
    have hRC : ((st.rows * st.cols : ℕ) : ℤ) = (st.rows : ℤ) * (st.cols : ℤ) := by
      push_cast
      ring
    have ht0' : st.t0 < (st.rows : ℤ) * (st.cols : ℤ) := by rw [← hRC]; exact ht0
    have ht2' : st.t2 < (st.rows : ℤ) * (st.cols : ℤ) := by rw [← hRC]; exact ht2
    have ht1nn : 0 ≤ st.t1 := le_of_lt (lt_of_le_of_lt h0 h1a)
    have ht2nn : 0 ≤ st.t2 := le_of_lt (lt_of_le_of_lt h0 h2a)
    have hdlt0 : st.t0 / (st.cols : ℤ) < (st.rows : ℤ) :=
      (Int.ediv_lt_iff_lt_mul hZ).mpr ht0'
    have ht1' : st.t1 < (st.rows : ℤ) * (st.cols : ℤ) := by
      have hm1lt : st.t1 % (st.cols : ℤ) < (st.cols : ℤ) :=
        Int.emod_lt_of_pos _ hZ
      have h9 : st.t1 / (st.cols : ℤ) ≤ (st.rows : ℤ) - 1 := by
        rw [hdiv1]
        omega
      have h10 : (st.cols : ℤ) * (st.t1 / (st.cols : ℤ))
          ≤ (st.cols : ℤ) * ((st.rows : ℤ) - 1) :=
        mul_le_mul_of_nonneg_left h9 (le_of_lt hZ)
      have h11 : (st.cols : ℤ) * ((st.rows : ℤ) - 1)
          = (st.cols : ℤ) * (st.rows : ℤ) - (st.cols : ℤ) := by ring
      have h12 : (st.rows : ℤ) * (st.cols : ℤ)
          = (st.cols : ℤ) * (st.rows : ℤ) := by ring
      linarith
    -- cast helper
    have castQ : ∀ a : ℤ, 0 ≤ a → ((a.toNat : ℚ)) = (a : ℚ) := by
      intro a ha
      exact_mod_cast congrArg (fun z : ℤ => (z : ℚ)) (Int.toNat_of_nonneg ha)
    -- the three lookups into the rewritten working-distance map
    have L0 : focus_new_wd_map st st.t0
        = focus_origin_wd st
          + (((st.t0 % (st.cols : ℤ)).toNat : ℚ)) * wd_delta_x st
          + (((st.t0 / (st.cols : ℤ)).toNat : ℚ)) * wd_delta_y st :=
      gridIters_writeFoldZ_lookup_int hcols h0 ht0' _ st.wd_map
    have L1 : focus_new_wd_map st st.t1
        = focus_origin_wd st
          + (((st.t1 % (st.cols : ℤ)).toNat : ℚ)) * wd_delta_x st
          + (((st.t1 / (st.cols : ℤ)).toNat : ℚ)) * wd_delta_y st :=
      gridIters_writeFoldZ_lookup_int hcols ht1nn ht1' _ st.wd_map
    have L2 : focus_new_wd_map st st.t2
        = focus_origin_wd st
          + (((st.t2 % (st.cols : ℤ)).toNat : ℚ)) * wd_delta_x st
          + (((st.t2 / (st.cols : ℤ)).toNat : ℚ)) * wd_delta_y st :=
      gridIters_writeFoldZ_lookup_int hcols ht2nn ht2' _ st.wd_map
    -- cancellation identities
    have hne1 : ((st.t1 : ℚ) - (st.t0 : ℚ)) ≠ 0 := by
      have : (st.t0 : ℚ) < (st.t1 : ℚ) := by exact_mod_cast h1a
      linarith
    have hwdx : ((st.t1 : ℚ) - (st.t0 : ℚ)) * wd_delta_x st
        = st.wd_map st.t1 - st.wd_map st.t0 := by
      unfold wd_delta_x
      push_cast
      rw [mul_comm, div_mul_cancel₀ _ hne1]
    have hwdy : ((y_diff st : ℤ) : ℚ) * wd_delta_y st
        = st.wd_map st.t2 - st.wd_map st.t0 := by
      unfold wd_delta_y
      rw [mul_comm, div_mul_cancel₀ _ hyne]
    have hQ1 : ((st.t1 % (st.cols : ℤ) : ℤ) : ℚ)
        - ((st.t0 % (st.cols : ℤ) : ℤ) : ℚ)
        = (st.t1 : ℚ) - (st.t0 : ℚ) := by
      have h := congrArg (fun z : ℤ => (z : ℚ)) hsub1
      push_cast at h
      linarith
    have hQ2 : ((st.t2 / (st.cols : ℤ) : ℤ) : ℚ)
        - ((st.t0 / (st.cols : ℤ) : ℤ) : ℚ)
        = ((y_diff st : ℤ) : ℚ) := by
      have h := congrArg (fun z : ℤ => (z : ℚ)) hydiff
      push_cast at h
      linarith
    have hden : ((y_diff st : ℤ) : ℚ)
        = ((st.t2 : ℚ) - (st.t0 : ℚ)) / ((st.cols : ℕ) : ℚ) := by
      have h := congrArg (fun z : ℤ => (z : ℚ)) hsub2
      push_cast at h
      rw [hQ2] at h
      rw [h, mul_div_cancel_left₀ _ hColsQ]
    refine ⟨rfl, ?_, ?_, ?_, ?_, ?_⟩
    · show wd_delta_x st = _
      unfold wd_delta_x
      push_cast
      ring
    · show wd_delta_y st = _
      unfold wd_delta_y
      rw [hden]
    · show focus_new_wd_map st st.t0 = st.wd_map st.t0
      rw [L0, castQ _ (Int.emod_nonneg st.t0 (ne_of_gt hZ)),
        castQ _ (Int.ediv_nonneg h0 (le_of_lt hZ))]
      unfold focus_origin_wd
      rw [hfm0, hfd0]
      ring
    · show focus_new_wd_map st st.t1 = st.wd_map st.t1
      rw [L1, castQ _ (Int.emod_nonneg st.t1 (ne_of_gt hZ)),
        castQ _ (Int.ediv_nonneg ht1nn (le_of_lt hZ))]
      unfold focus_origin_wd
      rw [hfm0, hfd0, hdiv1]
      linear_combination wd_delta_x st * hQ1 + hwdx
    · show focus_new_wd_map st st.t2 = st.wd_map st.t2
      rw [L2, castQ _ (Int.emod_nonneg st.t2 (ne_of_gt hZ)),
        castQ _ (Int.ediv_nonneg ht2nn (le_of_lt hZ))]
      unfold focus_origin_wd
      rw [hfm0, hfd0, hm2]
      linear_combination wd_delta_y st * hQ2 + hwdy

/-- A concrete 2×2 grid focus state: reference tiles 0, 1 (right neighbour)
and 2 (below neighbour) with stored working distances 1, 2, 3. -/
def c4State : FocusState :=
  { rows := 2, cols := 2, t0 := 0, t1 := 1, t2 := 2,
    af_gradient_x := 0, af_gradient_y := 0, origin_wd := 0,
    wd_map := fun t => if t = 0 then 1 else if t = 1 then 2 else
      if t = 2 then 3 else 0 }

/-- Witness for C4 at `c4State`. -/
theorem calculate_focus_map_spec_witness :
    (¬ FocusValid c4State → calculate_focus_map c4State = (false, c4State))
    ∧ (FocusValid c4State →
        (calculate_focus_map c4State).1 = true
        ∧ (calculate_focus_map c4State).2.af_gradient_x
            = (c4State.wd_map c4State.t1 - c4State.wd_map c4State.t0)
                / ((c4State.t1 : ℚ) - (c4State.t0 : ℚ))
        ∧ (calculate_focus_map c4State).2.af_gradient_y
            = (c4State.wd_map c4State.t2 - c4State.wd_map c4State.t0)
                / (((c4State.t2 : ℚ) - (c4State.t0 : ℚ)) / (c4State.cols : ℚ))
        ∧ (calculate_focus_map c4State).2.wd_map c4State.t0
            = c4State.wd_map c4State.t0
        ∧ (calculate_focus_map c4State).2.wd_map c4State.t1
            = c4State.wd_map c4State.t1
        ∧ (calculate_focus_map c4State).2.wd_map c4State.t2
            = c4State.wd_map c4State.t2) :=
  calculate_focus_map_spec c4State (by decide) (by decide) (by decide)

/-! ## `save_grid_setup` (grid_manager.py, lines 582-595)

The writer reads `grid_map_p[i][t]` and `grid_map_d[i][t]`, which hold the
values computed by `calculate_grid_map` (`initialize_all_grid_maps` runs at
construction); `grid_map_p_at` / `grid_map_d_at` are those values, tied to
the folded maps by `calculate_grid_map_at_spec` below.  Python's `str` on a
float is not modelled: the rendering of the working-distance field is an
abstract parameter `wdStr` of the writer. -/

/-- The pixel grid-map value at tile `t` (row `t / cols`, column
`t % cols`). -/
def grid_map_p_at (g : Grid) (t : ℕ) : ℤ × ℤ :=
  pixel_entry g (t / g.cols, t % g.cols)

/-- The SEM-coordinate grid-map value at tile `t`. -/
def grid_map_d_at (g : Grid) (t : ℕ) : StageMapEntry :=
  stage_entry g (t / g.cols, t % g.cols)

/-- The folded maps written by `calculate_grid_map` agree with
`grid_map_p_at` / `grid_map_d_at` on every in-range tile. -/
theorem calculate_grid_map_at_spec (g : Grid)
    (m0p : ℕ → Option (ℤ × ℤ)) (m0d : ℕ → Option StageMapEntry)
    (t : ℕ) (hcols : 0 < g.cols) (ht : t < g.rows * g.cols) :
    calculate_grid_map_p g m0p t = some (grid_map_p_at g t)
    ∧ calculate_grid_map_d g m0d t = some (grid_map_d_at g t) := by
  have hr : t / g.cols < g.rows := Nat.div_lt_of_lt_mul (by rwa [Nat.mul_comm])
  have hc : t % g.cols < g.cols := Nat.mod_lt t hcols
  have hkey : t % g.cols + t / g.cols * g.cols = t := Nat.mod_add_div' t g.cols
  constructor
  · have h := gridIters_writeFold_lookup hr hc (fun yx => some (pixel_entry g yx)) m0p
    rw [hkey] at h
    exact h
  · have h := gridIters_writeFold_lookup hr hc (fun yx => some (stage_entry g yx)) m0d
    rw [hkey] at h
    exact h

/-- Python's `str` on a bool: `'True'` / `'False'`. -/
def pyStrBool (b : Bool) : String := if b then "True" else "False"

/-- One line of the grid-map export file (grid_manager.py, lines 589-593):
`str(i) + '.' + str(t) + ';' + str(px) + ';' + str(py) + ';' + str(active)
+ ';' + str(wd) + '\n'`. -/
def gridmap_line (wdStr : ℚ → String) (i t : ℕ) (g : Grid) : String :=
  toString i ++ "." ++ toString t ++ ";"
    ++ toString (grid_map_p_at g t).1 ++ ";"
    ++ toString (grid_map_p_at g t).2 ++ ";"
    ++ pyStrBool (grid_map_d_at g t).active ++ ";"
    ++ wdStr (grid_map_d_at g t).wd ++ "\n"

/-- `save_grid_setup` (grid_manager.py, lines 582-595): for every grid `i`
and every tile `t` of `range(size[i][0] * size[i][1])`, write one line. -/
def save_grid_setup_lines (wdStr : ℚ → String) (gs : List Grid) : List String :=
  gs.enum.flatMap (fun p =>
    (List.range (p.2.rows * p.2.cols)).map (fun t => gridmap_line wdStr p.1 t p.2))

/-- Offset of grid `i`'s block of lines in the export file. -/
def gridmap_offset (gs : List Grid) (i : ℕ) : ℕ :=
  ((gs.take i).map (fun g => g.rows * g.cols)).sum

theorem save_lines_get (wdStr : ℚ → String) :
    ∀ (gs : List Grid) (k i t : ℕ) (g : Grid),
      gs.get? i = some g → t < g.rows * g.cols →
      ((List.enumFrom k gs).flatMap (fun p =>
          (List.range (p.2.rows * p.2.cols)).map
            (fun u => gridmap_line wdStr p.1 u p.2))).get?
          (gridmap_offset gs i + t)
        = some (gridmap_line wdStr (k + i) t g) := by
  intro gs
  induction gs with
  | nil => intro k i t g hi; simp at hi
  | cons c rest ih =>
    intro k i t g hi ht
    cases i with
    | zero =>
      simp only [List.get?_cons_zero, Option.some_inj] at hi
      subst hi
      have hoff : gridmap_offset (c :: rest) 0 = 0 := rfl
      rw [hoff, Nat.zero_add]
      have hlen : t < ((List.range (c.rows * c.cols)).map
          (fun u => gridmap_line wdStr k u c)).length := by
        simpa using ht
      rw [show List.enumFrom k (c :: rest) = (k, c) :: List.enumFrom (k + 1) rest
          from rfl]
      rw [List.flatMap_cons, List.get?_append hlen, List.get?_map,
        List.get?_range ht]
      simp
    | succ i' =>
      simp only [List.get?_cons_succ] at hi
      have hoff : gridmap_offset (c :: rest) (i' + 1)
          = c.rows * c.cols + gridmap_offset rest i' := by
        simp [gridmap_offset, List.take_succ_cons]
      rw [hoff]
      rw [show List.enumFrom k (c :: rest) = (k, c) :: List.enumFrom (k + 1) rest
          from rfl]
      rw [List.flatMap_cons]
      rw [List.get?_append_right (by simp; omega)]
      simp only [List.length_map, List.length_range]
      have harith : c.rows * c.cols + gridmap_offset rest i' + t
          - c.rows * c.cols = gridmap_offset rest i' + t := by omega
      rw [harith, ih (k + 1) i' t g hi ht]
      congr 2
      omega

theorem save_lines_length (wdStr : ℚ → String) :
    ∀ (gs : List Grid) (k : ℕ),
      ((List.enumFrom k gs).flatMap (fun p =>
          (List.range (p.2.rows * p.2.cols)).map
            (fun u => gridmap_line wdStr p.1 u p.2))).length
        = (gs.map (fun g => g.rows * g.cols)).sum := by
  intro gs
  induction gs with
  | nil => intro k; rfl
  | cons c rest ih =>
    intro k
    rw [show List.enumFrom k (c :: rest) = (k, c) :: List.enumFrom (k + 1) rest
        from rfl]
    rw [List.flatMap_cons, List.length_append]
    simp [ih (k + 1)]

/-- C10 (amended): `save_grid_setup` writes, for every grid `g` and every
tile `t` of that grid, exactly one line, of the form
`<grid>.<tile>;<pixel_x>;<pixel_y>;<active>;<working_distance>\n` — with the
active field rendered as Python's `str` of a bool, i.e. `True`/`False`, not
`0`/`1`. -/
theorem save_grid_setup_line_format (wdStr : ℚ → String) (gs : List Grid)
    (i t : ℕ) (g : Grid) (hi : gs.get? i = some g)
    (ht : t < g.rows * g.cols) :
    (save_grid_setup_lines wdStr gs).get? (gridmap_offset gs i + t)
        = some (toString i ++ "." ++ toString t ++ ";"
            ++ toString (grid_map_p_at g t).1 ++ ";"
            ++ toString (grid_map_p_at g t).2 ++ ";"
            ++ (if (grid_map_d_at g t).active then "True" else "False") ++ ";"
            ++ wdStr (grid_map_d_at g t).wd ++ "\n")
    ∧ (save_grid_setup_lines wdStr gs).length
        = (gs.map (fun g => g.rows * g.cols)).sum := by
  constructor
  · have h := save_lines_get wdStr gs 0 i t g hi ht
    rw [Nat.zero_add] at h
    exact h
  · exact save_lines_length wdStr gs 0

/-- A 1×1 grid with its single tile inactive and working distance 5. -/
def c10Grid : Grid :=
  { rows := 1, cols := 1, tile_width_p := 1024, tile_height_p := 768,
    pixel_size := 10, overlap := 0, row_shift := 0,
    active_tiles := [], origin_wd := 5, af_gradient_x := 0,
    af_gradient_y := 0, af_active := false }

/-- A concrete stand-in for Python's float rendering (the counterexample
does not depend on how the working-distance field is rendered). -/
def wdStrRat : ℚ → String := fun q => toString q

/-- C10 counterexample: the active field of an export line is written as
Python's `str` of a bool — here `False` — not as `0` or `1`. -/
theorem save_grid_setup_active_field_counterexample :
    (save_grid_setup_lines wdStrRat [c10Grid]).get? 0
        = some "0.0;0;0;False;5\n"
    ∧ "0.0;0;0;False;5\n" ≠ "0.0;0;0;0;5\n"
    ∧ "0.0;0;0;False;5\n" ≠ "0.0;0;0;1;5\n" := by
  refine ⟨?_, by decide, by decide⟩
  have h := save_lines_get wdStrRat [c10Grid] 0 0 0 c10Grid rfl (by decide)
  have h0 : (save_grid_setup_lines wdStrRat [c10Grid]).get? 0
      = some (gridmap_line wdStrRat 0 0 c10Grid) := h
  have hwd : (grid_map_d_at c10Grid 0).wd = 5 := by
    norm_num [grid_map_d_at, stage_entry, c10Grid]
  have hline : gridmap_line wdStrRat 0 0 c10Grid = "0.0;0;0;False;5\n" := by
    unfold gridmap_line
    rw [hwd]
    rfl
  rw [h0, hline]

/-- Witness for C10 (amended) on the one-grid list `[c10Grid]`. -/
theorem save_grid_setup_line_format_witness :
    ((save_grid_setup_lines wdStrRat [c10Grid]).get?
          (gridmap_offset [c10Grid] 0 + 0)
        = some (toString 0 ++ "." ++ toString 0 ++ ";"
            ++ toString (grid_map_p_at c10Grid 0).1 ++ ";"
            ++ toString (grid_map_p_at c10Grid 0).2 ++ ";"
            ++ (if (grid_map_d_at c10Grid 0).active then "True" else "False")
            ++ ";" ++ wdStrRat (grid_map_d_at c10Grid 0).wd ++ "\n")
    ∧ (save_grid_setup_lines wdStrRat [c10Grid]).length
        = ([c10Grid].map (fun g => g.rows * g.cols)).sum) :=
  save_grid_setup_line_format wdStrRat [c10Grid] 0 0 c10Grid rfl (by decide)

end SBEM
